import Mathlib

/-!
Verification of the template renderer and file-loading collaborators of
`prompt_formatter.py`.

Strings are modelled as `List Char` throughout.  Python's `str.replace`
(used for the placeholder substitution in `generate_prompt`) is modelled by
`listReplace`: a left-to-right scan replacing each non-overlapping
occurrence of the pattern, never re-scanning freshly inserted replacement
text.  The model agrees with Python for every non-empty pattern; all
patterns used by the program (the seven placeholder tokens) are non-empty.
-/

/-- Python `s.replace(pat, rep)` for non-empty `pat`, on `List Char`:
scan left to right; at a match emit `rep` and skip over the matched
pattern (inserted text is not re-scanned); otherwise copy one character. -/
def listReplace (pat rep : List Char) : List Char → List Char
  | [] => []
  | c :: cs =>
    if pat <+: (c :: cs) then
      rep ++ listReplace pat rep (List.drop (pat.length - 1) cs)
    else
      c :: listReplace pat rep cs
termination_by s => s.length
decreasing_by
  · simp only [List.length_drop, List.length_cons]
    omega
  · simp only [List.length_cons]
    omega

/-- The seven placeholder tokens, in the order `generate_prompt` replaces
them (source lines 171-177). -/
def tokStrings : List (List Char) :=
  [("[MEETING_TRANSCRIPT_TEXT]").toList,
   ("[MEETING_DATE]").toList,
   ("[MEETING_BODY]").toList,
   ("[REPORT_TYPE]").toList,
   ("[SPECIFIC_TOPIC]").toList,
   ("[OPTIONAL_SUPPORTING_DOCS]").toList,
   ("[STYLE_GUIDELINES]").toList]

/-- Token `i` of the substitution sequence. -/
def tokStr (i : Fin 7) : List Char :=
  tokStrings.get ⟨i.val, i.isLt⟩

/-!
The template, transcribed from source lines 7-56.  Long string literals
are kept below ~500 characters (as the named segments between placeholder
occurrences) so that every evaluation stays within the kernel's recursion
limits; `PROMPT_TEMPLATE` is their concatenation in textual order, which
read left to right reproduces the Python literal byte for byte.
-/

def seg0 : List Char := ("\n## Prompt for Generating Official Meeting Reports\n\n**Role:** You are an AI assistant specialized in processing official meeting records and generating accurate, objective summaries. Your primary goal is to create a factual report based *exclusively* on the provided definitive source material, typically a meeting transcript.\n\n**Task:** Generate a thorough and accurate report summarizing a specific official meeting (e.g., ").toList

def seg1 : List Char := ("). The report should accurately reflect the discussions, decisions, and outcomes based *only* on the provided transcript from ").toList

def seg2 : List Char := (".\n\n**Input:**\n\n1.  **Primary Source (Required):** The full, official transcript of the meeting:\n    ```transcript\n    ").toList

def seg3 : List Char := ("\n    ```\n\n2.  **Meeting Context (Required):**\n    * Meeting Body: ").toList

def seg4 : List Char := ("\n    * Meeting Date: ").toList

def seg5 : List Char := ("\n\n3.  **Report Type (Required):** ").toList

def seg6 : List Char := ("\n    * Specific Topic (if applicable): ").toList

def seg7 : List Char := ("\n\n4.  **Supporting Documents (Optional):**\n    ```supporting_docs\n    ").toList

def seg8 : List Char := ("\n    ```\n\n5.  **Style Guidelines (Optional):**\n    ```style_guidelines\n    ").toList

def seg9a : List Char := ("\n    ```\n\n**Process & Instructions:**\n\n1.  **Prioritize Transcript:** Base the entire report *solely* on the provided official transcript text. Do not incorporate information from external knowledge or preliminary summaries unless explicitly instructed and corroborated by the transcript.\n").toList

def seg9b : List Char := ("2.  **Verify Information:** Meticulously extract and verify all details from the transcript: Facts (actions, motions, decisions, figures, item numbers), Votes (precise counts, abstentions), Speakers & Names (accurate attribution, use **Name** format, ignore obvious transcript spelling errors if correct spelling is known), Procedural Details (referrals, readings, etc.).\n").toList

def seg9c : List Char := ("3.  **Handle Quotes:** Identify direct quotes. Include quotes **only if they are exactly verbatim** from the transcript. Use `<u>underlining</u>` format for verbatim quotes. Do *not* paraphrase and present it as a direct quote.\n4.  **Identify Key Topics (for Comprehensive Reports):** Analyze the transcript to identify the most significant discussions/actions based on debate intensity, financial/policy/community impact.\n5.  **Structure the Report:**\n").toList

def seg9d : List Char := ("    * **Comprehensive:** Organize logically (thematically or chronologically). Detail key topics. Include sections for major items, public input, other actions, context.\n    * **Topic-Specific:** Focus exclusively on the specified topic (`").toList

def seg10a : List Char := ("`). Include all relevant discussion, actions, context, and outcomes related *only* to that item.\n6.  **Drafting Style:** Maintain a neutral, objective, factual tone. Clearly attribute statements/arguments. Use item/order numbers for clarity. Summarize routine actions concisely.\n7.  **Context & Notes:** Include relevant context (opening/closing, tributes). If ambiguities remain *after analyzing the transcript*, list them in a separate \"Notes for Clarification\" section. Do not speculate.\n").toList

def seg10b : List Char := ("8.  **Review:** Ensure the final report is accurate, clear, complete (for the specified scope), internally consistent, and adheres to any provided Style Guidelines.\n\n**Output:**\n\n* Produce the report in Markdown format.\n* Adhere strictly to the specified `").toList

def seg11 : List Char := ("`.\n* Use specified formatting for names (`**Name**`) and quotes (`<u>quote</u>`) consistently.\n").toList

/-- The fixed prompt template (source lines 7-56 of `prompt_formatter.py`),
transcribed verbatim as the concatenation, in textual order, of the
literal segments between placeholder tokens and the tokens themselves.
Reading the parts left to right reproduces the Python literal exactly. -/
def PROMPT_TEMPLATE : List Char :=
  seg0 ++ ("[MEETING_BODY]").toList ++ seg1 ++ ("[MEETING_DATE]").toList ++ seg2 ++ ("[MEETING_TRANSCRIPT_TEXT]").toList ++ seg3 ++ ("[MEETING_BODY]").toList ++ seg4 ++ ("[MEETING_DATE]").toList ++ seg5 ++ ("[REPORT_TYPE]").toList ++ seg6 ++ ("[SPECIFIC_TOPIC]").toList ++ seg7 ++ ("[OPTIONAL_SUPPORTING_DOCS]").toList ++ seg8 ++ ("[STYLE_GUIDELINES]").toList ++ seg9a ++ seg9b ++ seg9c ++ seg9d ++ ("[SPECIFIC_TOPIC]").toList ++ seg10a ++ seg10b ++ ("[REPORT_TYPE]").toList ++ seg11

/-- A piece of a partially substituted document: a literal chunk of text,
or an occurrence of placeholder token `j`. -/
inductive Piece where
  | lit (s : List Char) : Piece
  | tok (j : Fin 7) : Piece
deriving DecidableEq

/-- Concatenate a piece list back into text. -/
def flat : List Piece → List Char
  | [] => []
  | Piece.lit s :: ps => s ++ flat ps
  | Piece.tok j :: ps => tokStr j ++ flat ps

/-- The template as an alternation of `'['`-free literal segments and
token occurrences, in textual order. -/
def ps0 : List Piece :=
  [Piece.lit seg0,
   Piece.tok 2,
   Piece.lit seg1,
   Piece.tok 1,
   Piece.lit seg2,
   Piece.tok 0,
   Piece.lit seg3,
   Piece.tok 2,
   Piece.lit seg4,
   Piece.tok 1,
   Piece.lit seg5,
   Piece.tok 3,
   Piece.lit seg6,
   Piece.tok 4,
   Piece.lit seg7,
   Piece.tok 5,
   Piece.lit seg8,
   Piece.tok 6,
   Piece.lit seg9a,
   Piece.lit seg9b,
   Piece.lit seg9c,
   Piece.lit seg9d,
   Piece.tok 4,
   Piece.lit seg10a,
   Piece.lit seg10b,
   Piece.tok 3,
   Piece.lit seg11]

/-!
Substitution on piece lists.  `subst k vsk ps` replaces every `tok k`
piece of `ps` by the piece list `vsk` and keeps everything else; it
mirrors one `str.replace` pass over the flattened text, provided every
literal piece is `'['`-free (`PiecesOk`).
-/

def pieceOk : Piece → Prop
  | Piece.lit s => '[' ∉ s
  | Piece.tok _ => True

instance : DecidablePred pieceOk := fun p =>
  match p with
  | Piece.lit s => inferInstanceAs (Decidable ('[' ∉ s))
  | Piece.tok _ => inferInstanceAs (Decidable True)

def PiecesOk (ps : List Piece) : Prop := ∀ p ∈ ps, pieceOk p

instance (ps : List Piece) : Decidable (PiecesOk ps) :=
  inferInstanceAs (Decidable (∀ p ∈ ps, pieceOk p))

def subst (k : Fin 7) (vsk : List Piece) : List Piece → List Piece
  | [] => []
  | Piece.lit s :: ps => Piece.lit s :: subst k vsk ps
  | Piece.tok j :: ps => (if j = k then vsk else [Piece.tok j]) ++ subst k vsk ps

/-!
The full substitution pass: `substChain v s` performs the seven
`str.replace` calls of `generate_prompt` (source lines 170-177) in
program order, starting from `s`; `applyAll` is its piece-level mirror.
-/

def substChain (v : Fin 7 → List Char) (s : List Char) : List Char :=
  listReplace (tokStr 6) (v 6)
    (listReplace (tokStr 5) (v 5)
      (listReplace (tokStr 4) (v 4)
        (listReplace (tokStr 3) (v 3)
          (listReplace (tokStr 2) (v 2)
            (listReplace (tokStr 1) (v 1)
              (listReplace (tokStr 0) (v 0) s))))))

def applyAll (vs : Fin 7 → List Piece) (ps : List Piece) : List Piece :=
  subst 6 (vs 6)
    (subst 5 (vs 5)
      (subst 4 (vs 4)
        (subst 3 (vs 3)
          (subst 2 (vs 2)
            (subst 1 (vs 1)
              (subst 0 (vs 0) ps))))))

/-!
The program.  `generate_prompt` (source lines 144-183) gathers widget
text, validates required fields, substitutes the placeholders, and
replaces the output area's content; widget reads/writes are modelled as
explicit values.  Python's `str.strip()` is modelled by `pyStrip` over
the ASCII whitespace characters.
-/

def noneProvidedS : List Char := ("None provided.").toList

def naS : List Char := ("N/A").toList

def comprehensiveS : List Char := ("Comprehensive").toList

def topicSpecificS : List Char := ("Topic-Specific").toList

def pySpace (c : Char) : Bool :=
  c = ' ' || c = '\t' || c = '\n' || c = '\r' || c = '\x0b' || c = '\x0c'

/-- Python `str.strip()`: drop leading and trailing whitespace. -/
def pyStrip (s : List Char) : List Char :=
  ((s.dropWhile pySpace).reverse.dropWhile pySpace).reverse

/-- The placeholder substitution block of `generate_prompt` (source lines
170-177): seven sequential `str.replace` calls on the template, in
program order, with the two optional fields defaulting to
`"None provided."` when empty. -/
def render (transcript_text meeting_date meeting_body report_type
    specific_topic supporting_docs style_guidelines : List Char) : List Char :=
  listReplace (tokStr 6) (if style_guidelines = [] then noneProvidedS else style_guidelines)
    (listReplace (tokStr 5) (if supporting_docs = [] then noneProvidedS else supporting_docs)
      (listReplace (tokStr 4) specific_topic
        (listReplace (tokStr 3) report_type
          (listReplace (tokStr 2) meeting_body
            (listReplace (tokStr 1) meeting_date
              (listReplace (tokStr 0) transcript_text PROMPT_TEMPLATE))))))

/-- The effective replacement value of each substitution step given the
seven gathered field values, in replacement order. -/
def fieldsOf (t d b rt sp dd ss : List Char) : Fin 7 → List Char := fun k =>
  [t, d, b, rt, sp,
   if dd = [] then noneProvidedS else dd,
   if ss = [] then noneProvidedS else ss].get k

/-- The widget state read by `generate_prompt`: the five text inputs, the
report-type radio variable, and the two optional text areas. -/
structure InputState where
  transcriptArea : List Char
  dateEntry : List Char
  bodyEntry : List Char
  reportTypeVar : List Char
  topicEntry : List Char
  docsArea : List Char
  styleArea : List Char

/-- The four validation errors of `generate_prompt` (source lines
155-167), in checking order. -/
inductive InputError where
  | emptyTranscript
  | emptyDate
  | emptyBody
  | emptyTopic
deriving DecidableEq

/-- `generate_prompt` (source lines 144-183): gather and strip inputs,
derive the specific topic (`"N/A"` unless the report type is
`"Topic-Specific"`), validate, and either report the first validation
error (producing nothing) or substitute the placeholders. -/
def generate_prompt (st : InputState) : Except InputError (List Char) :=
  let transcript_text := pyStrip st.transcriptArea
  let meeting_date := pyStrip st.dateEntry
  let meeting_body := pyStrip st.bodyEntry
  let report_type := st.reportTypeVar
  let specific_topic := if report_type = topicSpecificS then pyStrip st.topicEntry else naS
  let supporting_docs := pyStrip st.docsArea
  let style_guidelines := pyStrip st.styleArea
  if transcript_text = [] then Except.error InputError.emptyTranscript
  else if meeting_date = [] then Except.error InputError.emptyDate
  else if meeting_body = [] then Except.error InputError.emptyBody
  else if report_type = topicSpecificS ∧ specific_topic = [] then
    Except.error InputError.emptyTopic
  else Except.ok (render transcript_text meeting_date meeting_body report_type
    specific_topic supporting_docs style_guidelines)

/-- The output area after one press of the Generate button (source lines
180-183): on success the formatted prompt replaces the previous output,
on a validation error `generate_prompt` returns before touching it. -/
def runGenerate (st : InputState) (prev : List Char) : List Char :=
  match generate_prompt st with
  | Except.ok doc => doc
  | Except.error _ => prev

/-!
File loading.  The file dialog and `open`/`read` are effects outside the
program text; their outcome is passed in explicitly: `none` models a
cancelled dialog, `some none` a selected file whose read raises, and
`some (some content)` a successful read.
-/

inductive LoadResult where
  | loaded
  | cancelled
  | failed
deriving DecidableEq

/-- `_load_file_content` (source lines 68-91): on success the file
content replaces the widget's buffer; on cancel or read failure the
buffer is left untouched (the error is only reported). -/
def load_file_content (buffer : List Char) (dialog : Option (Option (List Char))) :
    List Char × LoadResult :=
  match dialog with
  | none => (buffer, LoadResult.cancelled)
  | some none => (buffer, LoadResult.failed)
  | some (some content) => (content, LoadResult.loaded)

/-- One selected file of a multi-file append: its basename and the
outcome of reading it (`none` models a read that raises). -/
structure DocFile where
  name : List Char
  res : Option (List Char)
deriving DecidableEq

/-- The labelled separator inserted before each appended file's content
(source line 115). -/
def sepFor (name : List Char) : List Char :=
  ("\n\n--- Supporting Doc: ").toList ++ name ++ (" ---\n\n").toList

/-- Result of `load_and_append_docs_files`: the docs text area content,
the number of files successfully appended, and the names of the files
whose read failed, in the order their warnings were shown. -/
structure AppendOutcome where
  buffer : List Char
  loadedCount : Nat
  failed : List (List Char)
deriving DecidableEq

def appendStep (acc : AppendOutcome) (f : DocFile) : AppendOutcome :=
  match f.res with
  | some content =>
      { acc with
        buffer := acc.buffer ++ sepFor f.name ++ content,
        loadedCount := acc.loadedCount + 1 }
  | none => { acc with failed := acc.failed ++ [f.name] }

/-- `load_and_append_docs_files` (source lines 93-127): for each selected
file in order, append separator and content on success, or report and
skip the file on a read failure. -/
def load_and_append_docs_files (buffer : List Char) (files : List DocFile) :
    AppendOutcome :=
  files.foldl appendStep { buffer := buffer, loadedCount := 0, failed := [] }

/-- The closing summary message box: shown, with the number of files
loaded, only when at least one file was appended (source lines 125-126). -/
def appendSummary (o : AppendOutcome) : Option Nat :=
  if 0 < o.loadedCount then some o.loadedCount else none

/-- Separator-plus-content segments contributed by the readable files of
a batch, in selection order. -/
def docsConcat : List DocFile → List Char
  | [] => []
  | f :: fs =>
      (match f.res with
       | some c => sepFor f.name ++ c
       | none => []) ++ docsConcat fs

/-!
Theorems.  All lemmas and claim theorems about the definitions above.
-/

theorem tokStr_zero : tokStr 0 = ("[MEETING_TRANSCRIPT_TEXT]").toList := rfl

theorem tokStr_one : tokStr 1 = ("[MEETING_DATE]").toList := rfl

theorem tokStr_two : tokStr 2 = ("[MEETING_BODY]").toList := rfl

theorem tokStr_three : tokStr 3 = ("[REPORT_TYPE]").toList := rfl

theorem tokStr_four : tokStr 4 = ("[SPECIFIC_TOPIC]").toList := rfl

theorem tokStr_five : tokStr 5 = ("[OPTIONAL_SUPPORTING_DOCS]").toList := rfl

theorem tokStr_six : tokStr 6 = ("[STYLE_GUIDELINES]").toList := rfl

/-- `ps0` is a faithful decomposition of the template. -/
theorem flat_ps0 : flat ps0 = PROMPT_TEMPLATE := by
  simp only [ps0, flat, PROMPT_TEMPLATE, tokStr_zero, tokStr_one, tokStr_two,
    tokStr_three, tokStr_four, tokStr_five, tokStr_six, List.append_assoc,
    List.append_nil]

/-!
Elementary facts about the tokens: each is `'['` followed by a
`'['`-free tail, `'['` occurs in every token, and no token is a prefix
of a different token.
-/

theorem tok_head : ∀ k : Fin 7, tokStr k = '[' :: (tokStr k).tail := by decide

theorem tok_tail_clean : ∀ k : Fin 7, '[' ∉ (tokStr k).tail := by decide

theorem lb_mem_tok : ∀ k : Fin 7, '[' ∈ tokStr k := by decide

theorem tok_no_pre : ∀ j k : Fin 7, j ≠ k → ¬ tokStr j <+: tokStr k := by decide

/-- Two prefixes of the same list are comparable. -/
theorem prefixComparable {a b c : List Char} (ha : a <+: c) (hb : b <+: c) :
    a <+: b ∨ b <+: a := by
  obtain ⟨ta, rfl⟩ := ha
  obtain ⟨tb, hb⟩ := hb
  rcases List.append_eq_append_iff.mp hb.symm with ⟨k, hk1, _⟩ | ⟨k, hk1, _⟩
  · exact Or.inl ⟨k, hk1.symm⟩
  · exact Or.inr ⟨k, hk1.symm⟩

/-! Stepping lemmas for `listReplace`. -/

theorem listReplace_nil (pat rep : List Char) : listReplace pat rep [] = [] := by
  simp [listReplace]

theorem listReplace_cons_pos {pat : List Char} {c : Char} {cs : List Char}
    (rep : List Char) (h : pat <+: (c :: cs)) :
    listReplace pat rep (c :: cs) =
      rep ++ listReplace pat rep (List.drop (pat.length - 1) cs) := by
  rw [listReplace, if_pos h]

theorem listReplace_cons_neg {pat : List Char} {c : Char} {cs : List Char}
    (rep : List Char) (h : ¬ pat <+: (c :: cs)) :
    listReplace pat rep (c :: cs) = c :: listReplace pat rep cs := by
  rw [listReplace, if_neg h]

/-- A match at the start of the scan: emit the replacement and continue
after the pattern, without re-scanning the replacement. -/
theorem listReplace_match (p : Char) (q rep rest : List Char) :
    listReplace (p :: q) rep ((p :: q) ++ rest) = rep ++ listReplace (p :: q) rep rest := by
  have hpre : (p :: q) <+: (p :: (q ++ rest)) := ⟨rest, by simp⟩
  rw [List.cons_append, listReplace_cons_pos rep hpre]
  congr 1
  have : (p :: q).length - 1 = q.length := by simp
  rw [this, List.drop_left]

/-- The scan copies a `'['`-free chunk unchanged when the pattern starts
with `'['`. -/
theorem listReplace_skip {pat : List Char} (rep : List Char) (s : List Char)
    (hpat : ∃ q, pat = '[' :: q) (hs : '[' ∉ s) (rest : List Char) :
    listReplace pat rep (s ++ rest) = s ++ listReplace pat rep rest := by
  obtain ⟨q, rfl⟩ := hpat
  induction s with
  | nil => simp
  | cons c s ih =>
    have hc : c ≠ '[' := by
      intro h
      subst h
      exact hs (List.mem_cons_self _ _)
    have hnp : ¬ ('[' :: q) <+: (c :: (s ++ rest)) := by
      rintro ⟨t, ht⟩
      rw [List.cons_append] at ht
      injection ht with h1 _
      exact hc h1.symm
    rw [List.cons_append, listReplace_cons_neg rep hnp,
      ih (fun h => hs (List.mem_cons_of_mem _ h))]
    rfl

/-- The scan copies an occurrence of a different token unchanged. -/
theorem listReplace_skip_tok (k j : Fin 7) (hjk : j ≠ k) (rep rest : List Char) :
    listReplace (tokStr k) rep (tokStr j ++ rest) =
      tokStr j ++ listReplace (tokStr k) rep rest := by
  have hnp : ¬ tokStr k <+: (tokStr j ++ rest) := by
    intro h
    rcases prefixComparable h (List.prefix_append _ rest) with h' | h'
    · exact tok_no_pre k j (fun e => hjk e.symm) h'
    · exact tok_no_pre j k hjk h'
  conv_lhs => rw [tok_head j]
  rw [List.cons_append,
    listReplace_cons_neg rep (by rw [← List.cons_append, ← tok_head j]; exact hnp),
    listReplace_skip rep (tokStr j).tail ⟨_, tok_head k⟩ (tok_tail_clean j) rest,
    ← List.cons_append, ← tok_head j]

set_option maxRecDepth 8000 in
theorem ps0_ok : PiecesOk ps0 := by decide

theorem flat_append (a b : List Piece) : flat (a ++ b) = flat a ++ flat b := by
  induction a with
  | nil => simp [flat]
  | cons p a ih =>
    cases p with
    | lit s => simp [flat, ih]
    | tok j => simp [flat, ih]

theorem piecesOk_cons {p : Piece} {ps : List Piece} (h : PiecesOk (p :: ps)) :
    pieceOk p ∧ PiecesOk ps :=
  ⟨h p (List.mem_cons_self _ _), fun x hx => h x (List.mem_cons_of_mem _ hx)⟩

theorem piecesOk_append {a b : List Piece} (ha : PiecesOk a) (hb : PiecesOk b) :
    PiecesOk (a ++ b) := by
  intro p hp
  rcases List.mem_append.mp hp with h | h
  · exact ha p h
  · exact hb p h

theorem subst_ok (k : Fin 7) {vsk ps : List Piece} (hv : PiecesOk vsk)
    (hps : PiecesOk ps) : PiecesOk (subst k vsk ps) := by
  induction ps with
  | nil => intro p hp; cases hp
  | cons p ps ih =>
    obtain ⟨hp, hps'⟩ := piecesOk_cons hps
    cases p with
    | lit s =>
      intro x hx
      rcases List.mem_cons.mp hx with rfl | hx
      · exact hp
      · exact ih hps' x hx
    | tok j =>
      refine piecesOk_append ?_ (ih hps')
      by_cases hjk : j = k
      · simpa [subst, hjk] using hv
      · intro x hx
        simp only [if_neg hjk, List.mem_singleton] at hx
        subst hx
        trivial

/-- One `str.replace` pass over a well-formed piece list is exactly a
piece-level substitution: occurrences of token `k` are precisely the
`tok k` pieces, nothing else matches, and the inserted replacement text
is not re-scanned. -/
theorem replace_flat (k : Fin 7) (vsk : List Piece) :
    ∀ ps : List Piece, PiecesOk ps →
      listReplace (tokStr k) (flat vsk) (flat ps) = flat (subst k vsk ps) := by
  intro ps
  induction ps with
  | nil => intro _; simp [flat, subst, listReplace_nil]
  | cons p ps ih =>
    intro h
    obtain ⟨hp, hps⟩ := piecesOk_cons h
    cases p with
    | lit s =>
      show listReplace (tokStr k) (flat vsk) (s ++ flat ps) = s ++ flat (subst k vsk ps)
      rw [listReplace_skip _ s ⟨_, tok_head k⟩ hp (flat ps), ih hps]
    | tok j =>
      by_cases hjk : j = k
      · subst hjk
        show listReplace (tokStr j) (flat vsk) (tokStr j ++ flat ps) =
          flat ((if j = j then vsk else [Piece.tok j]) ++ subst j vsk ps)
        rw [if_pos rfl, flat_append]
        conv_lhs => rw [tok_head j]
        rw [listReplace_match, ← tok_head j, ih hps]
      · show listReplace (tokStr k) (flat vsk) (tokStr j ++ flat ps) =
          flat ((if j = k then vsk else [Piece.tok j]) ++ subst k vsk ps)
        rw [if_neg hjk, flat_append, listReplace_skip_tok k j hjk, ih hps]
        simp [flat]

/-! Membership and structure lemmas for `subst`. -/

theorem subst_append (k : Fin 7) (vsk a b : List Piece) :
    subst k vsk (a ++ b) = subst k vsk a ++ subst k vsk b := by
  induction a with
  | nil => simp [subst]
  | cons p a ih =>
    cases p with
    | lit s => simp [subst, ih]
    | tok j => simp [subst, ih]

theorem mem_subst_left {k : Fin 7} {vsk ps : List Piece} {p : Piece}
    (hv : p ∈ vsk) (hk : Piece.tok k ∈ ps) : p ∈ subst k vsk ps := by
  induction ps with
  | nil => cases hk
  | cons q ps ih =>
    rcases List.mem_cons.mp hk with rfl | hk'
    · simp only [subst, if_pos rfl]
      exact List.mem_append.mpr (Or.inl hv)
    · cases q with
      | lit s => exact List.mem_cons_of_mem _ (ih hk')
      | tok j => exact List.mem_append.mpr (Or.inr (ih hk'))

theorem mem_subst_keep {k : Fin 7} {vsk ps : List Piece} {p : Piece}
    (hp : p ∈ ps) (hne : p ≠ Piece.tok k) : p ∈ subst k vsk ps := by
  induction ps with
  | nil => cases hp
  | cons q ps ih =>
    rcases List.mem_cons.mp hp with rfl | hp'
    · cases p with
      | lit s => exact List.mem_cons_self _ _
      | tok j =>
        have hjk : j ≠ k := fun e => hne (by rw [e])
        simp only [subst, if_neg hjk]
        exact List.mem_append.mpr (Or.inl (List.mem_singleton.mpr rfl))
    · cases q with
      | lit s => exact List.mem_cons_of_mem _ (ih hp')
      | tok j => exact List.mem_append.mpr (Or.inr (ih hp'))

theorem mem_of_mem_subst {k : Fin 7} {vsk ps : List Piece} {p : Piece}
    (h : p ∈ subst k vsk ps) : p ∈ vsk ∨ (p ∈ ps ∧ p ≠ Piece.tok k) := by
  induction ps with
  | nil => cases h
  | cons q ps ih =>
    cases q with
    | lit s =>
      rcases List.mem_cons.mp h with rfl | h'
      · exact Or.inr ⟨List.mem_cons_self _ _, fun e => Piece.noConfusion e⟩
      · rcases ih h' with hv | ⟨hp, hne⟩
        · exact Or.inl hv
        · exact Or.inr ⟨List.mem_cons_of_mem _ hp, hne⟩
    | tok j =>
      simp only [subst] at h
      rcases List.mem_append.mp h with h' | h'
      · by_cases hjk : j = k
        · rw [if_pos hjk] at h'
          exact Or.inl h'
        · rw [if_neg hjk] at h'
          have : p = Piece.tok j := List.mem_singleton.mp h'
          subst this
          exact Or.inr ⟨List.mem_cons_self _ _,
            fun e => hjk (by injection e)⟩
      · rcases ih h' with hv | ⟨hp, hne⟩
        · exact Or.inl hv
        · exact Or.inr ⟨List.mem_cons_of_mem _ hp, hne⟩

theorem applyAll_ok {vs : Fin 7 → List Piece} (hv : ∀ i, PiecesOk (vs i))
    {ps : List Piece} (hps : PiecesOk ps) : PiecesOk (applyAll vs ps) :=
  subst_ok 6 (hv 6) (subst_ok 5 (hv 5) (subst_ok 4 (hv 4) (subst_ok 3 (hv 3)
    (subst_ok 2 (hv 2) (subst_ok 1 (hv 1) (subst_ok 0 (hv 0) hps))))))

/-- The seven-pass replacement over a well-formed piece list is the
piece-level substitution of all seven tokens, in order. -/
theorem substChain_flat (vs : Fin 7 → List Piece) (hv : ∀ i, PiecesOk (vs i))
    (ps : List Piece) (hps : PiecesOk ps) :
    substChain (fun i => flat (vs i)) (flat ps) = flat (applyAll vs ps) := by
  have h0 := subst_ok 0 (hv 0) hps
  have h1 := subst_ok 1 (hv 1) h0
  have h2 := subst_ok 2 (hv 2) h1
  have h3 := subst_ok 3 (hv 3) h2
  have h4 := subst_ok 4 (hv 4) h3
  have h5 := subst_ok 5 (hv 5) h4
  unfold substChain applyAll
  rw [replace_flat 0 (vs 0) ps hps, replace_flat 1 (vs 1) _ h0,
    replace_flat 2 (vs 2) _ h1, replace_flat 3 (vs 3) _ h2,
    replace_flat 4 (vs 4) _ h3, replace_flat 5 (vs 5) _ h4,
    replace_flat 6 (vs 6) _ h5]

theorem applyAll_append (vs : Fin 7 → List Piece) (a b : List Piece) :
    applyAll vs (a ++ b) = applyAll vs a ++ applyAll vs b := by
  unfold applyAll
  rw [subst_append, subst_append, subst_append, subst_append, subst_append,
    subst_append, subst_append]

/-! Consequences for the final piece list. -/

theorem tok_ne_of_piece_ne {m k : Fin 7} (h : Piece.tok m ≠ Piece.tok k) : m ≠ k :=
  fun e => h (by rw [e])

theorem val_ne_of_piece_ne {m k : Fin 7} (h : Piece.tok m ≠ Piece.tok k) :
    m.val ≠ k.val :=
  fun e => tok_ne_of_piece_ne h (Fin.ext e)

/-- If every token carried by a value piece list belongs to a strictly
later substitution step, then no token at all survives the seven passes:
tokens of the template are replaced at their own step, and tokens
introduced by a value are replaced at their (later) step. -/
theorem tok_not_mem_applyAll {vs : Fin 7 → List Piece}
    (hv : ∀ i : Fin 7, ∀ m : Fin 7, Piece.tok m ∈ vs i → i < m)
    (ps : List Piece) : ∀ m : Fin 7, Piece.tok m ∉ applyAll vs ps := by
  intro m h
  have hm : m.val < 7 := m.isLt
  unfold applyAll at h
  rcases mem_of_mem_subst h with h6 | ⟨h, ne6⟩
  · have : (6 : Nat) < m.val := hv 6 m h6
    omega
  have n6 := val_ne_of_piece_ne ne6
  rcases mem_of_mem_subst h with h5 | ⟨h, ne5⟩
  · have : (5 : Nat) < m.val := hv 5 m h5
    omega
  have n5 := val_ne_of_piece_ne ne5
  rcases mem_of_mem_subst h with h4 | ⟨h, ne4⟩
  · have : (4 : Nat) < m.val := hv 4 m h4
    omega
  have n4 := val_ne_of_piece_ne ne4
  rcases mem_of_mem_subst h with h3 | ⟨h, ne3⟩
  · have : (3 : Nat) < m.val := hv 3 m h3
    omega
  have n3 := val_ne_of_piece_ne ne3
  rcases mem_of_mem_subst h with h2 | ⟨h, ne2⟩
  · have : (2 : Nat) < m.val := hv 2 m h2
    omega
  have n2 := val_ne_of_piece_ne ne2
  rcases mem_of_mem_subst h with h1 | ⟨h, ne1⟩
  · have : (1 : Nat) < m.val := hv 1 m h1
    omega
  have n1 := val_ne_of_piece_ne ne1
  rcases mem_of_mem_subst h with h0 | ⟨_, ne0⟩
  · have : (0 : Nat) < m.val := hv 0 m h0
    omega
  have n0 := val_ne_of_piece_ne ne0
  omega

theorem piece_tok_ne_of_val_ne {j k : Fin 7} (h : j.val ≠ k.val) :
    Piece.tok j ≠ Piece.tok k := by
  intro e
  injection e with e'
  exact h (by rw [e'])

theorem tok_mem_ps0 : ∀ i : Fin 7, Piece.tok i ∈ ps0 := by decide

/-- A token contained in the value of step `i` survives every pass from
step `i` on when it belongs to step `i` or an earlier step: the pass that
inserts it does not re-scan it, and later passes replace other tokens. -/
theorem tok_mem_applyAll {vs : Fin 7 → List Piece} (i j : Fin 7) (hji : j ≤ i)
    (hin : Piece.tok j ∈ vs i) : Piece.tok j ∈ applyAll vs ps0 := by
  have hj : j.val ≤ i.val := hji
  unfold applyAll
  fin_cases i <;> simp only at hj
  · exact mem_subst_keep (mem_subst_keep (mem_subst_keep (mem_subst_keep
      (mem_subst_keep (mem_subst_keep
        (mem_subst_left hin (tok_mem_ps0 0))
        (piece_tok_ne_of_val_ne (by omega))) (piece_tok_ne_of_val_ne (by omega)))
      (piece_tok_ne_of_val_ne (by omega))) (piece_tok_ne_of_val_ne (by omega)))
      (piece_tok_ne_of_val_ne (by omega))) (piece_tok_ne_of_val_ne (by omega))
  · exact mem_subst_keep (mem_subst_keep (mem_subst_keep (mem_subst_keep
      (mem_subst_keep
        (mem_subst_left hin
          (mem_subst_keep (tok_mem_ps0 1) (piece_tok_ne_of_val_ne (by decide))))
        (piece_tok_ne_of_val_ne (by omega))) (piece_tok_ne_of_val_ne (by omega)))
      (piece_tok_ne_of_val_ne (by omega))) (piece_tok_ne_of_val_ne (by omega)))
      (piece_tok_ne_of_val_ne (by omega))
  · exact mem_subst_keep (mem_subst_keep (mem_subst_keep (mem_subst_keep
      (mem_subst_left hin
        (mem_subst_keep (mem_subst_keep (tok_mem_ps0 2)
          (piece_tok_ne_of_val_ne (by decide))) (piece_tok_ne_of_val_ne (by decide))))
      (piece_tok_ne_of_val_ne (by omega))) (piece_tok_ne_of_val_ne (by omega)))
      (piece_tok_ne_of_val_ne (by omega))) (piece_tok_ne_of_val_ne (by omega))
  · exact mem_subst_keep (mem_subst_keep (mem_subst_keep
      (mem_subst_left hin
        (mem_subst_keep (mem_subst_keep (mem_subst_keep (tok_mem_ps0 3)
          (piece_tok_ne_of_val_ne (by decide))) (piece_tok_ne_of_val_ne (by decide)))
          (piece_tok_ne_of_val_ne (by decide))))
      (piece_tok_ne_of_val_ne (by omega))) (piece_tok_ne_of_val_ne (by omega)))
      (piece_tok_ne_of_val_ne (by omega))
  · exact mem_subst_keep (mem_subst_keep
      (mem_subst_left hin
        (mem_subst_keep (mem_subst_keep (mem_subst_keep (mem_subst_keep
          (tok_mem_ps0 4) (piece_tok_ne_of_val_ne (by decide)))
          (piece_tok_ne_of_val_ne (by decide))) (piece_tok_ne_of_val_ne (by decide)))
          (piece_tok_ne_of_val_ne (by decide))))
      (piece_tok_ne_of_val_ne (by omega))) (piece_tok_ne_of_val_ne (by omega))
  · exact mem_subst_keep
      (mem_subst_left hin
        (mem_subst_keep (mem_subst_keep (mem_subst_keep (mem_subst_keep
          (mem_subst_keep (tok_mem_ps0 5) (piece_tok_ne_of_val_ne (by decide)))
          (piece_tok_ne_of_val_ne (by decide))) (piece_tok_ne_of_val_ne (by decide)))
          (piece_tok_ne_of_val_ne (by decide))) (piece_tok_ne_of_val_ne (by decide))))
      (piece_tok_ne_of_val_ne (by omega))
  · exact mem_subst_left hin
      (mem_subst_keep (mem_subst_keep (mem_subst_keep (mem_subst_keep
        (mem_subst_keep (mem_subst_keep (tok_mem_ps0 6)
          (piece_tok_ne_of_val_ne (by decide))) (piece_tok_ne_of_val_ne (by decide)))
        (piece_tok_ne_of_val_ne (by decide))) (piece_tok_ne_of_val_ne (by decide)))
        (piece_tok_ne_of_val_ne (by decide))) (piece_tok_ne_of_val_ne (by decide)))

/-! Bridging text-level facts. -/

theorem infix_extend_left (s : List Char) {x t : List Char} (h : x <:+: t) :
    x <:+: (s ++ t) := by
  obtain ⟨u, v, huv⟩ := h
  exact ⟨s ++ u, v, by rw [← huv]; simp [List.append_assoc]⟩

theorem infix_flat_of_mem_tok {j : Fin 7} {ps : List Piece}
    (h : Piece.tok j ∈ ps) : tokStr j <:+: flat ps := by
  induction ps with
  | nil => cases h
  | cons p ps ih =>
    rcases List.mem_cons.mp h with rfl | h'
    · exact ⟨[], flat ps, by simp [flat]⟩
    · cases p with
      | lit s => exact infix_extend_left s (ih h')
      | tok m => exact infix_extend_left (tokStr m) (ih h')

theorem lb_not_mem_flat {ps : List Piece} (hok : PiecesOk ps)
    (hnt : ∀ m : Fin 7, Piece.tok m ∉ ps) : '[' ∉ flat ps := by
  induction ps with
  | nil => simp [flat]
  | cons p ps ih =>
    obtain ⟨hp, hps⟩ := piecesOk_cons hok
    cases p with
    | lit s =>
      intro hmem
      rcases List.mem_append.mp hmem with h | h
      · exact hp h
      · exact ih hps (fun m hm => hnt m (List.mem_cons_of_mem _ hm)) h
    | tok m => exact absurd (List.mem_cons_self _ _) (hnt m)

theorem not_infix_of_no_lb {x s : List Char} (hx : '[' ∈ x) (hs : '[' ∉ s) :
    ¬ x <:+: s :=
  fun h => hs (h.subset hx)

theorem render_eq_substChain (t d b rt sp dd ss : List Char) :
    render t d b rt sp dd ss = substChain (fieldsOf t d b rt sp dd ss) PROMPT_TEMPLATE :=
  rfl

/-! High-level consequences about the substitution chain. -/

theorem singleton_lit_ok {x : List Char} (hx : '[' ∉ x) :
    PiecesOk [Piece.lit x] := by
  intro p hp
  rcases List.mem_singleton.mp hp with rfl
  exact hx

theorem tok_not_mem_singleton_lit {x : List Char} {i m : Fin 7} :
    Piece.tok m ∈ [Piece.lit x] → i < m := by
  intro h
  rcases List.mem_singleton.mp h with h'
  exact absurd h' (fun e => Piece.noConfusion e)

/-- When no field value contains `'['`, the rendered text contains no
`'['` at all, hence no placeholder token. -/
theorem substChain_no_lb {v : Fin 7 → List Char} (hv : ∀ i, '[' ∉ v i) :
    '[' ∉ substChain v PROMPT_TEMPLATE := by
  have hfl : (fun i => flat [Piece.lit (v i)]) = v := funext fun i => by
    simp [flat]
  have hvs : ∀ i, PiecesOk [Piece.lit (v i)] := fun i => singleton_lit_ok (hv i)
  rw [← hfl, ← flat_ps0, substChain_flat _ hvs ps0 ps0_ok]
  exact lb_not_mem_flat (applyAll_ok hvs ps0_ok)
    (tok_not_mem_applyAll (fun i m hm => tok_not_mem_singleton_lit hm) ps0)

/-- A token embedded in the value of step `i` survives to the final
document whenever it belongs to step `i` or an earlier step. -/
theorem substChain_keeps_early_token {v : Fin 7 → List Char} (i j : Fin 7)
    (hji : j ≤ i) (hother : ∀ k, k ≠ i → '[' ∉ v k) {l r : List Char}
    (hvi : v i = l ++ tokStr j ++ r) (hl : '[' ∉ l) (hr : '[' ∉ r) :
    tokStr j <:+: substChain v PROMPT_TEMPLATE := by
  have hfl : (fun k => flat (if k = i
      then [Piece.lit l, Piece.tok j, Piece.lit r]
      else [Piece.lit (v k)])) = v := funext fun k => by
    by_cases hk : k = i
    · subst hk
      simp [flat, hvi, List.append_assoc]
    · simp [hk, flat]
  have hvs : ∀ k, PiecesOk (if k = i
      then [Piece.lit l, Piece.tok j, Piece.lit r]
      else [Piece.lit (v k)]) := fun k => by
    by_cases hk : k = i
    · subst hk
      simp only [if_pos rfl]
      intro p hp
      rcases List.mem_cons.mp hp with rfl | hp'
      · exact hl
      rcases List.mem_cons.mp hp' with rfl | hp''
      · trivial
      rcases List.mem_singleton.mp hp'' with rfl
      · exact hr
    · rw [if_neg hk]
      exact singleton_lit_ok (hother k hk)
  rw [← hfl, ← flat_ps0, substChain_flat _ hvs ps0 ps0_ok]
  refine infix_flat_of_mem_tok (tok_mem_applyAll i j hji ?_)
  simp

/-- A token embedded in the value of step `i` is itself substituted away
by a later step `j > i`: it does not survive to the final document
(provided nothing else re-introduces a bracket). -/
theorem substChain_replaces_late_token {v : Fin 7 → List Char} (i j : Fin 7)
    (hij : i < j) (hother : ∀ k, k ≠ i → '[' ∉ v k) {l r : List Char}
    (hvi : v i = l ++ tokStr j ++ r) (hl : '[' ∉ l) (hr : '[' ∉ r) :
    ¬ tokStr j <:+: substChain v PROMPT_TEMPLATE := by
  have hfl : (fun k => flat (if k = i
      then [Piece.lit l, Piece.tok j, Piece.lit r]
      else [Piece.lit (v k)])) = v := funext fun k => by
    by_cases hk : k = i
    · subst hk
      simp [flat, hvi, List.append_assoc]
    · simp [hk, flat]
  have hvs : ∀ k, PiecesOk (if k = i
      then [Piece.lit l, Piece.tok j, Piece.lit r]
      else [Piece.lit (v k)]) := fun k => by
    by_cases hk : k = i
    · subst hk
      simp only [if_pos rfl]
      intro p hp
      rcases List.mem_cons.mp hp with rfl | hp'
      · exact hl
      rcases List.mem_cons.mp hp' with rfl | hp''
      · trivial
      rcases List.mem_singleton.mp hp'' with rfl
      · exact hr
    · rw [if_neg hk]
      exact singleton_lit_ok (hother k hk)
  rw [← hfl, ← flat_ps0, substChain_flat _ hvs ps0 ps0_ok]
  apply not_infix_of_no_lb (lb_mem_tok j)
  refine lb_not_mem_flat (applyAll_ok hvs ps0_ok)
    (tok_not_mem_applyAll (fun k m hm => ?_) ps0)
  by_cases hk : k = i
  · subst hk
    rw [if_pos rfl] at hm
    rcases List.mem_cons.mp hm with hm' | hm'
    · exact absurd hm' (fun e => Piece.noConfusion e)
    rcases List.mem_cons.mp hm' with hm'' | hm''
    · injection hm'' with e
      subst e
      exact hij
    rcases List.mem_singleton.mp hm'' with hm'''
    · exact absurd hm''' (fun e => Piece.noConfusion e)
  · rw [if_neg hk] at hm
    exact tok_not_mem_singleton_lit hm

/-! The complete output formula for bracket-free field values. -/

theorem applyAll_nil (vs : Fin 7 → List Piece) : applyAll vs [] = [] := by
  simp [applyAll, subst]

theorem applyAll_lit (vs : Fin 7 → List Piece) (s : List Char) (ps : List Piece) :
    applyAll vs (Piece.lit s :: ps) = Piece.lit s :: applyAll vs ps := by
  simp [applyAll, subst]

theorem applyAll_tok_lits (w : Fin 7 → List Char) (k : Fin 7) (ps : List Piece) :
    applyAll (fun i => [Piece.lit (w i)]) (Piece.tok k :: ps) =
      Piece.lit (w k) :: applyAll (fun i => [Piece.lit (w i)]) ps := by
  fin_cases k <;> simp [applyAll, subst]

/-- The final document for bracket-free field values `w`, written out in
full: each placeholder occurrence of the template is replaced by the
corresponding value, and nothing else changes. -/
theorem substChain_lits (w : Fin 7 → List Char) (hw : ∀ i, '[' ∉ w i) :
    substChain w PROMPT_TEMPLATE =
      seg0 ++ (w 2 ++ (seg1 ++ (w 1 ++ (seg2 ++ (w 0 ++ (seg3 ++ (w 2 ++
        (seg4 ++ (w 1 ++ (seg5 ++ (w 3 ++ (seg6 ++ (w 4 ++ (seg7 ++ (w 5 ++
        (seg8 ++ (w 6 ++ (seg9a ++ (seg9b ++ (seg9c ++ (seg9d ++ (w 4 ++
        (seg10a ++ (seg10b ++ (w 3 ++ seg11))))))))))))))))))))))))) := by
  have hfl : (fun i => flat [Piece.lit (w i)]) = w := funext fun i => by
    simp [flat]
  have hvs : ∀ i, PiecesOk [Piece.lit (w i)] := fun i => singleton_lit_ok (hw i)
  rw [← hfl, ← flat_ps0, substChain_flat _ hvs ps0 ps0_ok]
  show flat (applyAll (fun i => [Piece.lit (w i)]) ps0) = _
  rw [show ps0 = Piece.lit seg0 :: Piece.tok 2 :: Piece.lit seg1 :: Piece.tok 1 ::
    Piece.lit seg2 :: Piece.tok 0 :: Piece.lit seg3 :: Piece.tok 2 ::
    Piece.lit seg4 :: Piece.tok 1 :: Piece.lit seg5 :: Piece.tok 3 ::
    Piece.lit seg6 :: Piece.tok 4 :: Piece.lit seg7 :: Piece.tok 5 ::
    Piece.lit seg8 :: Piece.tok 6 :: Piece.lit seg9a :: Piece.lit seg9b ::
    Piece.lit seg9c :: Piece.lit seg9d :: Piece.tok 4 :: Piece.lit seg10a ::
    Piece.lit seg10b :: Piece.tok 3 :: [Piece.lit seg11] from rfl]
  rw [applyAll_lit, applyAll_tok_lits, applyAll_lit, applyAll_tok_lits,
    applyAll_lit, applyAll_tok_lits, applyAll_lit, applyAll_tok_lits,
    applyAll_lit, applyAll_tok_lits, applyAll_lit, applyAll_tok_lits,
    applyAll_lit, applyAll_tok_lits, applyAll_lit, applyAll_tok_lits,
    applyAll_lit, applyAll_tok_lits, applyAll_lit, applyAll_lit,
    applyAll_lit, applyAll_lit, applyAll_tok_lits, applyAll_lit,
    applyAll_lit, applyAll_tok_lits, applyAll_lit, applyAll_nil]
  simp [flat]

/-- Positional version for the pair (transcript, date): a `[MEETING_DATE]`
token inside the transcript value ends up replaced by the date value at
exactly that position in the final document. -/
theorem substChain_date_in_transcript {v : Fin 7 → List Char} {l r : List Char}
    (hother : ∀ k, k ≠ 0 → '[' ∉ v k) (hv0 : v 0 = l ++ tokStr 1 ++ r)
    (hl : '[' ∉ l) (hr : '[' ∉ r) :
    (l ++ v 1 ++ r) <:+: substChain v PROMPT_TEMPLATE := by
  have hfl : (fun k => flat (if k = (0 : Fin 7)
      then [Piece.lit l, Piece.tok 1, Piece.lit r]
      else [Piece.lit (v k)])) = v := funext fun k => by
    by_cases hk : k = (0 : Fin 7)
    · subst hk
      simp [flat, hv0, List.append_assoc]
    · simp [hk, flat]
  have hvs : ∀ k, PiecesOk (if k = (0 : Fin 7)
      then [Piece.lit l, Piece.tok 1, Piece.lit r]
      else [Piece.lit (v k)]) := fun k => by
    by_cases hk : k = (0 : Fin 7)
    · subst hk
      simp only [if_pos rfl]
      intro p hp
      rcases List.mem_cons.mp hp with rfl | hp'
      · exact hl
      rcases List.mem_cons.mp hp' with rfl | hp''
      · trivial
      rcases List.mem_singleton.mp hp'' with rfl
      · exact hr
    · rw [if_neg hk]
      exact singleton_lit_ok (hother k hk)
  have hmain : substChain v PROMPT_TEMPLATE = flat (applyAll (fun k =>
      if k = (0 : Fin 7) then [Piece.lit l, Piece.tok 1, Piece.lit r]
      else [Piece.lit (v k)]) ps0) := by
    conv_lhs => rw [← hfl, ← flat_ps0]
    exact substChain_flat _ hvs ps0 ps0_ok
  rw [hmain]
  rw [show ps0 = [Piece.lit seg0, Piece.tok 2, Piece.lit seg1, Piece.tok 1,
    Piece.lit seg2] ++ (Piece.tok 0 :: [Piece.lit seg3, Piece.tok 2,
    Piece.lit seg4, Piece.tok 1, Piece.lit seg5, Piece.tok 3, Piece.lit seg6,
    Piece.tok 4, Piece.lit seg7, Piece.tok 5, Piece.lit seg8, Piece.tok 6,
    Piece.lit seg9a, Piece.lit seg9b, Piece.lit seg9c, Piece.lit seg9d,
    Piece.tok 4, Piece.lit seg10a, Piece.lit seg10b, Piece.tok 3,
    Piece.lit seg11]) from rfl]
  rw [applyAll_append]
  have hmid : applyAll (fun k => if k = (0 : Fin 7)
      then [Piece.lit l, Piece.tok 1, Piece.lit r]
      else [Piece.lit (v k)]) (Piece.tok 0 :: [Piece.lit seg3, Piece.tok 2,
      Piece.lit seg4, Piece.tok 1, Piece.lit seg5, Piece.tok 3, Piece.lit seg6,
      Piece.tok 4, Piece.lit seg7, Piece.tok 5, Piece.lit seg8, Piece.tok 6,
      Piece.lit seg9a, Piece.lit seg9b, Piece.lit seg9c, Piece.lit seg9d,
      Piece.tok 4, Piece.lit seg10a, Piece.lit seg10b, Piece.tok 3,
      Piece.lit seg11]) =
      Piece.lit l :: Piece.lit (v 1) :: Piece.lit r :: applyAll (fun k =>
        if k = (0 : Fin 7) then [Piece.lit l, Piece.tok 1, Piece.lit r]
        else [Piece.lit (v k)]) [Piece.lit seg3, Piece.tok 2,
      Piece.lit seg4, Piece.tok 1, Piece.lit seg5, Piece.tok 3, Piece.lit seg6,
      Piece.tok 4, Piece.lit seg7, Piece.tok 5, Piece.lit seg8, Piece.tok 6,
      Piece.lit seg9a, Piece.lit seg9b, Piece.lit seg9c, Piece.lit seg9d,
      Piece.tok 4, Piece.lit seg10a, Piece.lit seg10b, Piece.tok 3,
      Piece.lit seg11] := by
    simp [applyAll, subst]
  rw [hmid, flat_append]
  refine infix_extend_left _ ?_
  generalize applyAll (fun k => if k = (0 : Fin 7)
    then [Piece.lit l, Piece.tok 1, Piece.lit r]
    else [Piece.lit (v k)]) [Piece.lit seg3, Piece.tok 2, Piece.lit seg4,
    Piece.tok 1, Piece.lit seg5, Piece.tok 3, Piece.lit seg6, Piece.tok 4,
    Piece.lit seg7, Piece.tok 5, Piece.lit seg8, Piece.tok 6, Piece.lit seg9a,
    Piece.lit seg9b, Piece.lit seg9c, Piece.lit seg9d, Piece.tok 4,
    Piece.lit seg10a, Piece.lit seg10b, Piece.tok 3, Piece.lit seg11] = tailPs
  exact ⟨[], flat tailPs, by simp [flat, List.append_assoc]⟩

/-! Behaviour of the multi-file append fold. -/

theorem appendFold (files : List DocFile) : ∀ acc : AppendOutcome,
    (files.foldl appendStep acc).buffer = acc.buffer ++ docsConcat files ∧
    (files.foldl appendStep acc).loadedCount =
      acc.loadedCount + (files.filter (fun f => f.res.isSome)).length ∧
    (files.foldl appendStep acc).failed =
      acc.failed ++ (files.filter (fun f => f.res.isNone)).map (fun f => f.name) := by
  induction files with
  | nil => intro acc; simp [docsConcat]
  | cons f fs ih =>
    intro acc
    cases hres : f.res with
    | some c =>
      have := ih { acc with
        buffer := acc.buffer ++ sepFor f.name ++ c,
        loadedCount := acc.loadedCount + 1 }
      refine ⟨?_, ?_, ?_⟩
      · rw [List.foldl_cons, show appendStep acc f = { acc with
          buffer := acc.buffer ++ sepFor f.name ++ c,
          loadedCount := acc.loadedCount + 1 } from by simp [appendStep, hres]]
        rw [this.1]
        simp [docsConcat, hres, List.append_assoc]
      · rw [List.foldl_cons, show appendStep acc f = { acc with
          buffer := acc.buffer ++ sepFor f.name ++ c,
          loadedCount := acc.loadedCount + 1 } from by simp [appendStep, hres]]
        rw [this.2.1]
        simp [hres]
        omega
      · rw [List.foldl_cons, show appendStep acc f = { acc with
          buffer := acc.buffer ++ sepFor f.name ++ c,
          loadedCount := acc.loadedCount + 1 } from by simp [appendStep, hres]]
        rw [this.2.2]
        simp [hres]
    | none =>
      have := ih { acc with failed := acc.failed ++ [f.name] }
      refine ⟨?_, ?_, ?_⟩
      · rw [List.foldl_cons, show appendStep acc f = { acc with
          failed := acc.failed ++ [f.name] } from by simp [appendStep, hres]]
        rw [this.1]
        simp [docsConcat, hres]
      · rw [List.foldl_cons, show appendStep acc f = { acc with
          failed := acc.failed ++ [f.name] } from by simp [appendStep, hres]]
        rw [this.2.1]
        simp [hres]
      · rw [List.foldl_cons, show appendStep acc f = { acc with
          failed := acc.failed ++ [f.name] } from by simp [appendStep, hres]]
        rw [this.2.2]
        simp [hres, List.append_assoc]

/-!
Claim theorems.  One theorem per claim of the specification, each with a
witness instantiating it on concrete inputs when it carries hypotheses.
-/

/-- Claim C6: for every ordered list of readable files, multi-file append
concatenates their contents in selection order, inserting before each
file's content a labelled separator identifying the originating file;
in particular for files `a` (content `X`) and `b` (content `Y`) selected
in that order, the assembled text is the previous buffer followed by
separator-plus-`X` and then separator-plus-`Y`. -/
theorem c6_append_order (buffer : List Char) (files : List DocFile)
    (_hall : ∀ f ∈ files, f.res ≠ none) :
    (load_and_append_docs_files buffer files).buffer = buffer ++ docsConcat files ∧
    ∀ a X b Y : List Char,
      (load_and_append_docs_files buffer [⟨a, some X⟩, ⟨b, some Y⟩]).buffer =
        buffer ++ (sepFor a ++ X) ++ (sepFor b ++ Y) := by
  constructor
  · exact (appendFold files _).1
  · intro a X b Y
    rw [show load_and_append_docs_files buffer [⟨a, some X⟩, ⟨b, some Y⟩] =
      List.foldl appendStep { buffer := buffer, loadedCount := 0, failed := [] }
        [⟨a, some X⟩, ⟨b, some Y⟩] from rfl, (appendFold _ _).1]
    simp [docsConcat, List.append_assoc]

theorem c6_append_order_witness :
    (load_and_append_docs_files ("prior").toList
        [⟨("a.txt").toList, some ("X").toList⟩,
         ⟨("b.txt").toList, some ("Y").toList⟩]).buffer =
      ("prior").toList ++
        docsConcat [⟨("a.txt").toList, some ("X").toList⟩,
         ⟨("b.txt").toList, some ("Y").toList⟩] ∧
    (load_and_append_docs_files ("prior").toList
        [⟨("a.txt").toList, some ("X").toList⟩,
         ⟨("b.txt").toList, some ("Y").toList⟩]).buffer =
      ("prior").toList ++ (sepFor ("a.txt").toList ++ ("X").toList) ++
        (sepFor ("b.txt").toList ++ ("Y").toList) := by
  refine ⟨(c6_append_order ("prior").toList _ (by decide)).1, ?_⟩
  exact (c6_append_order ("prior").toList [] (by decide)).2
    ("a.txt").toList ("X").toList ("b.txt").toList ("Y").toList

/-- Claim C7 counterexample: a batch consisting of one file whose read
fails is reported and skipped, but it is NOT followed by any summary
message (the summary is shown only when at least one file loaded), so a
batch is not always followed by a summary. -/
theorem c7_counterexample :
    (load_and_append_docs_files [] [⟨("a.txt").toList, none⟩]).failed =
      [("a.txt").toList] ∧
    (load_and_append_docs_files [] [⟨("a.txt").toList, none⟩]).loadedCount = 0 ∧
    appendSummary (load_and_append_docs_files [] [⟨("a.txt").toList, none⟩]) =
      none := by
  decide

/-- Claim C7 (amended): every file whose read fails is reported per-file,
in order, and skipped while the batch continues with the remaining files
(the buffer receives exactly the readable files' separators and
contents, and the count is the number of successes); a summary stating
how many files succeeded follows exactly when at least one file was
loaded. -/
theorem c7_failures_skipped (buffer : List Char) (files : List DocFile) :
    (load_and_append_docs_files buffer files).failed =
      (files.filter (fun f => f.res.isNone)).map (fun f => f.name) ∧
    (load_and_append_docs_files buffer files).loadedCount =
      (files.filter (fun f => f.res.isSome)).length ∧
    (load_and_append_docs_files buffer files).buffer = buffer ++ docsConcat files ∧
    (0 < (load_and_append_docs_files buffer files).loadedCount →
      appendSummary (load_and_append_docs_files buffer files) =
        some (load_and_append_docs_files buffer files).loadedCount) := by
  have h := appendFold files { buffer := buffer, loadedCount := 0, failed := [] }
  refine ⟨?_, ?_, ?_, ?_⟩
  · rw [show load_and_append_docs_files buffer files = files.foldl appendStep
      { buffer := buffer, loadedCount := 0, failed := [] } from rfl, h.2.2]
    simp
  · rw [show load_and_append_docs_files buffer files = files.foldl appendStep
      { buffer := buffer, loadedCount := 0, failed := [] } from rfl, h.2.1]
    simp
  · exact h.1
  · intro hpos
    simp [appendSummary, hpos]

theorem c7_failures_skipped_witness :
    (load_and_append_docs_files [] [⟨("a.txt").toList, none⟩,
        ⟨("b.txt").toList, some ("Y").toList⟩]).failed = [("a.txt").toList] ∧
    appendSummary (load_and_append_docs_files [] [⟨("a.txt").toList, none⟩,
        ⟨("b.txt").toList, some ("Y").toList⟩]) = some 1 := by
  have h := c7_failures_skipped []
    [⟨("a.txt").toList, none⟩, ⟨("b.txt").toList, some ("Y").toList⟩]
  refine ⟨?_, ?_⟩
  · rw [h.1]
    decide
  · rw [h.2.2.2 (by rw [h.2.1]; decide)]
    rw [h.2.1]
    decide

/-- Claim C9: a single-file load (transcript or style guidelines) whose
file read fails leaves the target buffer's prior content untouched and
only reports the failure. -/
theorem c9_single_file_failure (buffer : List Char) :
    load_file_content buffer (some none) = (buffer, LoadResult.failed) := rfl

/-- Claim C8: rendering is deterministic (equal input states give
byte-identical results) and idempotent on the displayed output:
generating again with the same inputs leaves the output area unchanged. -/
theorem c8_deterministic_idempotent (st₁ st₂ : InputState) (prev : List Char) :
    (st₁ = st₂ → generate_prompt st₁ = generate_prompt st₂) ∧
    runGenerate st₁ (runGenerate st₁ prev) = runGenerate st₁ prev := by
  constructor
  · intro h
    rw [h]
  · cases h : generate_prompt st₁ with
    | ok doc => simp [runGenerate, h]
    | error e => simp [runGenerate, h]

/-- Claim C3: whenever a required field is empty (transcript, date or
body empty after stripping, or report type `"Topic-Specific"` with an
empty stripped topic), `generate_prompt` stops with a validation error:
no document is produced and the previously displayed output is left
unchanged. -/
theorem c3_validation_blocks (st : InputState) (prev : List Char)
    (h : pyStrip st.transcriptArea = [] ∨ pyStrip st.dateEntry = [] ∨
      pyStrip st.bodyEntry = [] ∨
      (st.reportTypeVar = topicSpecificS ∧ pyStrip st.topicEntry = [])) :
    (∃ e : InputError, generate_prompt st = Except.error e) ∧
    runGenerate st prev = prev := by
  have hmain : ∃ e : InputError, generate_prompt st = Except.error e := by
    by_cases h1 : pyStrip st.transcriptArea = []
    · exact ⟨InputError.emptyTranscript, by simp [generate_prompt, h1]⟩
    by_cases h2 : pyStrip st.dateEntry = []
    · exact ⟨InputError.emptyDate, by simp [generate_prompt, h1, h2]⟩
    by_cases h3 : pyStrip st.bodyEntry = []
    · exact ⟨InputError.emptyBody, by simp [generate_prompt, h1, h2, h3]⟩
    rcases h with h' | h' | h' | ⟨hrt, htp⟩
    · exact absurd h' h1
    · exact absurd h' h2
    · exact absurd h' h3
    · exact ⟨InputError.emptyTopic, by simp [generate_prompt, h1, h2, h3, hrt, htp]⟩
  obtain ⟨e, he⟩ := hmain
  exact ⟨⟨e, he⟩, by simp [runGenerate, he]⟩

theorem c3_validation_blocks_witness :
    (∃ e : InputError, generate_prompt
      { transcriptArea := ("some transcript").toList,
        dateEntry := ("2024-05-01").toList,
        bodyEntry := ("City Council").toList,
        reportTypeVar := ("Topic-Specific").toList,
        topicEntry := ("   ").toList,
        docsArea := [],
        styleArea := [] } = Except.error e) ∧
    runGenerate
      { transcriptArea := ("some transcript").toList,
        dateEntry := ("2024-05-01").toList,
        bodyEntry := ("City Council").toList,
        reportTypeVar := ("Topic-Specific").toList,
        topicEntry := ("   ").toList,
        docsArea := [],
        styleArea := [] } ("previous output").toList = ("previous output").toList :=
  c3_validation_blocks _ _ (by decide)

theorem c8_deterministic_idempotent_witness :
    generate_prompt
      { transcriptArea := ("t").toList, dateEntry := ("d").toList,
        bodyEntry := ("b").toList, reportTypeVar := ("Comprehensive").toList,
        topicEntry := [], docsArea := [], styleArea := [] } =
    generate_prompt
      { transcriptArea := ("t").toList, dateEntry := ("d").toList,
        bodyEntry := ("b").toList, reportTypeVar := ("Comprehensive").toList,
        topicEntry := [], docsArea := [], styleArea := [] } ∧
    runGenerate
      { transcriptArea := ("t").toList, dateEntry := ("d").toList,
        bodyEntry := ("b").toList, reportTypeVar := ("Comprehensive").toList,
        topicEntry := [], docsArea := [], styleArea := [] }
      (runGenerate
        { transcriptArea := ("t").toList, dateEntry := ("d").toList,
          bodyEntry := ("b").toList, reportTypeVar := ("Comprehensive").toList,
          topicEntry := [], docsArea := [], styleArea := [] } ("old").toList) =
    runGenerate
      { transcriptArea := ("t").toList, dateEntry := ("d").toList,
        bodyEntry := ("b").toList, reportTypeVar := ("Comprehensive").toList,
        topicEntry := [], docsArea := [], styleArea := [] } ("old").toList :=
  ⟨(c8_deterministic_idempotent
      { transcriptArea := ("t").toList, dateEntry := ("d").toList,
        bodyEntry := ("b").toList, reportTypeVar := ("Comprehensive").toList,
        topicEntry := [], docsArea := [], styleArea := [] }
      { transcriptArea := ("t").toList, dateEntry := ("d").toList,
        bodyEntry := ("b").toList, reportTypeVar := ("Comprehensive").toList,
        topicEntry := [], docsArea := [], styleArea := [] } ("old").toList).1 rfl,
   (c8_deterministic_idempotent
      { transcriptArea := ("t").toList, dateEntry := ("d").toList,
        bodyEntry := ("b").toList, reportTypeVar := ("Comprehensive").toList,
        topicEntry := [], docsArea := [], styleArea := [] }
      { transcriptArea := ("t").toList, dateEntry := ("d").toList,
        bodyEntry := ("b").toList, reportTypeVar := ("Comprehensive").toList,
        topicEntry := [], docsArea := [], styleArea := [] } ("old").toList).2⟩

/-! Helpers connecting `render`'s gathered fields to the chain lemmas. -/

theorem fieldsOf_no_lb {t d b rt sp dd ss : List Char}
    (ht : '[' ∉ t) (hd : '[' ∉ d) (hb : '[' ∉ b) (hrt : '[' ∉ rt)
    (hsp : '[' ∉ sp) (hdd : '[' ∉ dd) (hss : '[' ∉ ss) :
    ∀ i : Fin 7, '[' ∉ fieldsOf t d b rt sp dd ss i := by
  intro i
  fin_cases i
  · exact ht
  · exact hd
  · exact hb
  · exact hrt
  · exact hsp
  · show '[' ∉ if dd = [] then noneProvidedS else dd
    by_cases h : dd = []
    · rw [if_pos h]
      decide
    · rw [if_neg h]
      exact hdd
  · show '[' ∉ if ss = [] then noneProvidedS else ss
    by_cases h : ss = []
    · rw [if_pos h]
      decide
    · rw [if_neg h]
      exact hss

theorem infix_head (A B rest : List Char) : (A ++ B) <:+: (A ++ (B ++ rest)) :=
  ⟨[], rest, by simp [List.append_assoc]⟩

/-- Claim C2 counterexample: a complete field mapping for which the
rendered document still contains a placeholder token: the style
guidelines value carries the text `[MEETING_DATE]`, whose replacement
pass has already run when the style value is inserted. -/
theorem c2_counterexample :
    tokStr 1 <:+: render ("t").toList ("d").toList ("b").toList
      ("Comprehensive").toList ("N/A").toList ("agenda").toList
      ("see [MEETING_DATE]").toList := by
  rw [render_eq_substChain]
  exact substChain_keeps_early_token 6 1 (by decide) (by decide)
    (by decide : fieldsOf ("t").toList ("d").toList ("b").toList
      ("Comprehensive").toList ("N/A").toList ("agenda").toList
      ("see [MEETING_DATE]").toList 6 = ("see ").toList ++ tokStr 1 ++ [])
    (by decide) (by decide)

/-- Claim C2 (amended): for the program's template and every complete
field mapping whose values contain no `'['` character, the rendered
document contains no remaining placeholder token. -/
theorem c2_no_tokens_remain (t d b rt sp dd ss : List Char)
    (ht : '[' ∉ t) (hd : '[' ∉ d) (hb : '[' ∉ b) (hrt : '[' ∉ rt)
    (hsp : '[' ∉ sp) (hdd : '[' ∉ dd) (hss : '[' ∉ ss) :
    ∀ m : Fin 7, ¬ tokStr m <:+: render t d b rt sp dd ss := by
  intro m
  rw [render_eq_substChain]
  exact not_infix_of_no_lb (lb_mem_tok m)
    (substChain_no_lb (fieldsOf_no_lb ht hd hb hrt hsp hdd hss))

theorem c2_no_tokens_remain_witness :
    ¬ tokStr 1 <:+: render ("t").toList ("2024-05-01").toList
      ("City Council").toList ("Comprehensive").toList ("N/A").toList
      [] [] :=
  c2_no_tokens_remain _ _ _ _ _ _ _ (by decide) (by decide) (by decide)
    (by decide) (by decide) (by decide) (by decide) 1

/-- Claim C1 counterexample: the transcript value contains the literal
token `[MEETING_DATE]`, yet the rendered document does not: the token
inside the inserted value is substituted by the later date pass, so it
does not appear unchanged in the output. -/
theorem c1_counterexample :
    tokStr 1 <:+: ("See [MEETING_DATE]").toList ∧
    ¬ tokStr 1 <:+: render ("See [MEETING_DATE]").toList
      ("2024-05-01").toList ("City Council").toList ("Comprehensive").toList
      ("N/A").toList ("agenda").toList ("notes").toList := by
  constructor
  · decide
  · rw [render_eq_substChain]
    exact substChain_replaces_late_token 0 1 (by decide) (by decide)
      (by decide : fieldsOf ("See [MEETING_DATE]").toList ("2024-05-01").toList
        ("City Council").toList ("Comprehensive").toList ("N/A").toList
        ("agenda").toList ("notes").toList 0 =
        ("See ").toList ++ tokStr 1 ++ [])
      (by decide) (by decide)

/-- Claim C1 (amended): `render` is the substitution chain over the
gathered field values, and a field value containing the literal text of
a placeholder token is inserted verbatim with that token NOT further
substituted exactly when the token belongs to the same or an earlier
substitution step; such a token still appears unchanged in the rendered
document.  (A token of a strictly later step is substituted; see C10.) -/
theorem c1_same_or_earlier_token_verbatim :
    (∀ t d b rt sp dd ss : List Char,
      render t d b rt sp dd ss =
        substChain (fieldsOf t d b rt sp dd ss) PROMPT_TEMPLATE) ∧
    ∀ (v : Fin 7 → List Char) (i j : Fin 7), j ≤ i →
      (∀ k, k ≠ i → '[' ∉ v k) → ∀ l r : List Char,
      v i = l ++ tokStr j ++ r → '[' ∉ l → '[' ∉ r →
      tokStr j <:+: substChain v PROMPT_TEMPLATE :=
  ⟨render_eq_substChain, fun _ i j hji hother _ _ hvi hl hr =>
    substChain_keeps_early_token i j hji hother hvi hl hr⟩

theorem c1_same_or_earlier_token_verbatim_witness :
    tokStr 1 <:+: substChain (fieldsOf ("t").toList ("d").toList ("b").toList
      ("Comprehensive").toList ("N/A").toList ("agenda").toList
      ("x [MEETING_DATE] y").toList) PROMPT_TEMPLATE :=
  c1_same_or_earlier_token_verbatim.2
    (fieldsOf ("t").toList ("d").toList ("b").toList ("Comprehensive").toList
      ("N/A").toList ("agenda").toList ("x [MEETING_DATE] y").toList)
    6 1 (by decide) (by decide) ("x ").toList (" y").toList
    (by decide) (by decide) (by decide)

/-- Claim C10: placeholder substitution is the fixed sequence of
whole-string replacements in the order transcript, date, body, report
type, specific topic, supporting docs, style guidelines, each pass
re-scanning the whole accumulated document; consequently a token of a
later-substituted field inside an earlier-substituted value is itself
replaced by the later pass — it does not survive to the output, and for
the transcript/date pair the date value ends up at exactly the token's
position inside the inserted transcript text. -/
theorem c10_sequential_replacement_order :
    (∀ t d b rt sp dd ss : List Char,
      render t d b rt sp dd ss =
        listReplace ("[STYLE_GUIDELINES]").toList
            (if ss = [] then noneProvidedS else ss)
          (listReplace ("[OPTIONAL_SUPPORTING_DOCS]").toList
              (if dd = [] then noneProvidedS else dd)
            (listReplace ("[SPECIFIC_TOPIC]").toList sp
              (listReplace ("[REPORT_TYPE]").toList rt
                (listReplace ("[MEETING_BODY]").toList b
                  (listReplace ("[MEETING_DATE]").toList d
                    (listReplace ("[MEETING_TRANSCRIPT_TEXT]").toList t
                      PROMPT_TEMPLATE))))))) ∧
    (∀ (v : Fin 7 → List Char) (i j : Fin 7), i < j →
      (∀ k, k ≠ i → '[' ∉ v k) → ∀ l r : List Char,
      v i = l ++ tokStr j ++ r → '[' ∉ l → '[' ∉ r →
      ¬ tokStr j <:+: substChain v PROMPT_TEMPLATE) ∧
    ∀ l r d b rt sp dd ss : List Char,
      '[' ∉ l → '[' ∉ r → '[' ∉ d → '[' ∉ b → '[' ∉ rt → '[' ∉ sp →
      '[' ∉ dd → '[' ∉ ss →
      (l ++ d ++ r) <:+:
        render (l ++ tokStr 1 ++ r) d b rt sp dd ss := by
  refine ⟨fun t d b rt sp dd ss => rfl, ?_, ?_⟩
  · exact fun _ i j hij hother _ _ hvi hl hr =>
      substChain_replaces_late_token i j hij hother hvi hl hr
  · intro l r d b rt sp dd ss hl hr hd hb hrt hsp hdd hss
    rw [render_eq_substChain]
    exact @substChain_date_in_transcript
      (fieldsOf (l ++ tokStr 1 ++ r) d b rt sp dd ss) l r
      (fun k hk => by
        fin_cases k
        · simp at hk
        · exact hd
        · exact hb
        · exact hrt
        · exact hsp
        · show '[' ∉ if dd = [] then noneProvidedS else dd
          by_cases h : dd = []
          · rw [if_pos h]
            decide
          · rw [if_neg h]
            exact hdd
        · show '[' ∉ if ss = [] then noneProvidedS else ss
          by_cases h : ss = []
          · rw [if_pos h]
            decide
          · rw [if_neg h]
            exact hss)
      rfl hl hr

theorem c10_sequential_replacement_order_witness :
    (("See ").toList ++ ("2024-05-01").toList ++ (" thanks").toList) <:+:
      render (("See ").toList ++ tokStr 1 ++ (" thanks").toList)
        ("2024-05-01").toList ("City Council").toList
        ("Comprehensive").toList ("N/A").toList [] [] :=
  c10_sequential_replacement_order.2.2 ("See ").toList (" thanks").toList
    ("2024-05-01").toList ("City Council").toList ("Comprehensive").toList
    ("N/A").toList [] [] (by decide) (by decide) (by decide) (by decide)
    (by decide) (by decide) (by decide) (by decide)

/-- Claim C4: with report type `"Comprehensive"`, the specific-topic
entry is ignored (the result does not depend on it) and the
`[SPECIFIC_TOPIC]` placeholder is rendered as `"N/A"`: the rendered
document contains the topic line with `N/A` in place of the token. -/
theorem c4_comprehensive_na (st : InputState)
    (hrt : st.reportTypeVar = comprehensiveS) :
    (∀ x, generate_prompt { st with topicEntry := x } = generate_prompt st) ∧
    (∀ doc, generate_prompt st = Except.ok doc →
      '[' ∉ pyStrip st.transcriptArea → '[' ∉ pyStrip st.dateEntry →
      '[' ∉ pyStrip st.bodyEntry → '[' ∉ pyStrip st.docsArea →
      '[' ∉ pyStrip st.styleArea →
      (("\n    * Specific Topic (if applicable): N/A").toList) <:+: doc) := by
  have hne : st.reportTypeVar ≠ topicSpecificS := by
    rw [hrt]
    decide
  constructor
  · intro x
    simp [generate_prompt, hne]
  · intro doc h ht hd hb hdd hss
    simp only [generate_prompt, hne, if_false] at h
    split_ifs at h with e1 e2 e3 e4
    simp only [Except.ok.injEq] at h
    subst h
    rw [render_eq_substChain,
      substChain_lits _ (fieldsOf_no_lb ht hd hb (by rw [hrt]; decide)
        (by decide) hdd hss),
      show (("\n    * Specific Topic (if applicable): N/A").toList) =
        seg6 ++ naS from by decide]
    apply infix_extend_left
    apply infix_extend_left
    apply infix_extend_left
    apply infix_extend_left
    apply infix_extend_left
    apply infix_extend_left
    apply infix_extend_left
    apply infix_extend_left
    apply infix_extend_left
    apply infix_extend_left
    apply infix_extend_left
    apply infix_extend_left
    exact infix_head seg6 naS _

theorem c4_comprehensive_na_witness :
    (∀ x, generate_prompt
      { ({ transcriptArea := ("meeting transcript").toList,
           dateEntry := ("2024-05-01").toList,
           bodyEntry := ("City Council").toList,
           reportTypeVar := ("Comprehensive").toList,
           topicEntry := ("ignored topic").toList,
           docsArea := ("agenda").toList,
           styleArea := ("notes").toList } : InputState) with
         topicEntry := x } = generate_prompt
      { transcriptArea := ("meeting transcript").toList,
        dateEntry := ("2024-05-01").toList,
        bodyEntry := ("City Council").toList,
        reportTypeVar := ("Comprehensive").toList,
        topicEntry := ("ignored topic").toList,
        docsArea := ("agenda").toList,
        styleArea := ("notes").toList }) ∧
    (("\n    * Specific Topic (if applicable): N/A").toList) <:+:
      render (pyStrip ("meeting transcript").toList)
        (pyStrip ("2024-05-01").toList) (pyStrip ("City Council").toList)
        ("Comprehensive").toList naS (pyStrip ("agenda").toList)
        (pyStrip ("notes").toList) :=
  ⟨(c4_comprehensive_na _ rfl).1,
   (c4_comprehensive_na
      { transcriptArea := ("meeting transcript").toList,
        dateEntry := ("2024-05-01").toList,
        bodyEntry := ("City Council").toList,
        reportTypeVar := ("Comprehensive").toList,
        topicEntry := ("ignored topic").toList,
        docsArea := ("agenda").toList,
        styleArea := ("notes").toList } rfl).2 _ rfl (by decide) (by decide)
      (by decide) (by decide) (by decide)⟩

/-- Shape of a successful `generate_prompt`: the produced document is the
substitution of the stripped field values, with the conditional topic. -/
theorem generate_prompt_ok {st : InputState} {doc : List Char}
    (h : generate_prompt st = Except.ok doc) :
    doc = render (pyStrip st.transcriptArea) (pyStrip st.dateEntry)
      (pyStrip st.bodyEntry) st.reportTypeVar
      (if st.reportTypeVar = topicSpecificS then pyStrip st.topicEntry else naS)
      (pyStrip st.docsArea) (pyStrip st.styleArea) := by
  simp only [generate_prompt] at h
  split_ifs at h ⊢ with e1 e2 e3 e4 <;>
    simp only [Except.ok.injEq] at h <;> rw [h]

/-- Claim C5: when the supporting-docs and style-guidelines fields are
both empty after trimming, the `[OPTIONAL_SUPPORTING_DOCS]` and
`[STYLE_GUIDELINES]` placeholders are each rendered as the literal
string `"None provided."`: the rendered document contains the two
corresponding sections with that fallback text in the tokens' places. -/
theorem c5_optional_defaults (st : InputState)
    (hdocs : pyStrip st.docsArea = []) (hstyle : pyStrip st.styleArea = []) :
    ∀ doc, generate_prompt st = Except.ok doc →
      '[' ∉ pyStrip st.transcriptArea → '[' ∉ pyStrip st.dateEntry →
      '[' ∉ pyStrip st.bodyEntry →
      (st.reportTypeVar = comprehensiveS ∨ st.reportTypeVar = topicSpecificS) →
      '[' ∉ pyStrip st.topicEntry →
      (("\n\n4.  **Supporting Documents (Optional):**\n    ```supporting_docs\n    None provided.").toList) <:+: doc ∧
      (("\n    ```\n\n5.  **Style Guidelines (Optional):**\n    ```style_guidelines\n    None provided.").toList) <:+: doc := by
  intro doc h ht hd hb hrt htp
  have hsp : '[' ∉ (if st.reportTypeVar = topicSpecificS
      then pyStrip st.topicEntry else naS) := by
    by_cases hts : st.reportTypeVar = topicSpecificS
    · rw [if_pos hts]
      exact htp
    · rw [if_neg hts]
      decide
  have hrt' : '[' ∉ st.reportTypeVar := by
    rcases hrt with h' | h' <;> rw [h'] <;> decide
  have hddlb : '[' ∉ pyStrip st.docsArea := by
    rw [hdocs]
    decide
  have hsslb : '[' ∉ pyStrip st.styleArea := by
    rw [hstyle]
    decide
  rw [generate_prompt_ok h, render_eq_substChain,
    substChain_lits _ (fieldsOf_no_lb ht hd hb hrt' hsp hddlb hsslb),
    show fieldsOf (pyStrip st.transcriptArea) (pyStrip st.dateEntry)
      (pyStrip st.bodyEntry) st.reportTypeVar
      (if st.reportTypeVar = topicSpecificS then pyStrip st.topicEntry else naS)
      (pyStrip st.docsArea) (pyStrip st.styleArea) 5 = noneProvidedS from by
        show (if pyStrip st.docsArea = [] then noneProvidedS
          else pyStrip st.docsArea) = noneProvidedS
        rw [if_pos hdocs],
    show fieldsOf (pyStrip st.transcriptArea) (pyStrip st.dateEntry)
      (pyStrip st.bodyEntry) st.reportTypeVar
      (if st.reportTypeVar = topicSpecificS then pyStrip st.topicEntry else naS)
      (pyStrip st.docsArea) (pyStrip st.styleArea) 6 = noneProvidedS from by
        show (if pyStrip st.styleArea = [] then noneProvidedS
          else pyStrip st.styleArea) = noneProvidedS
        rw [if_pos hstyle]]
  constructor
  · rw [show (("\n\n4.  **Supporting Documents (Optional):**\n    ```supporting_docs\n    None provided.").toList) = seg7 ++ noneProvidedS from by decide]
    apply infix_extend_left
    apply infix_extend_left
    apply infix_extend_left
    apply infix_extend_left
    apply infix_extend_left
    apply infix_extend_left
    apply infix_extend_left
    apply infix_extend_left
    apply infix_extend_left
    apply infix_extend_left
    apply infix_extend_left
    apply infix_extend_left
    apply infix_extend_left
    apply infix_extend_left
    exact infix_head seg7 noneProvidedS _
  · rw [show (("\n    ```\n\n5.  **Style Guidelines (Optional):**\n    ```style_guidelines\n    None provided.").toList) = seg8 ++ noneProvidedS from by decide]
    apply infix_extend_left
    apply infix_extend_left
    apply infix_extend_left
    apply infix_extend_left
    apply infix_extend_left
    apply infix_extend_left
    apply infix_extend_left
    apply infix_extend_left
    apply infix_extend_left
    apply infix_extend_left
    apply infix_extend_left
    apply infix_extend_left
    apply infix_extend_left
    apply infix_extend_left
    apply infix_extend_left
    apply infix_extend_left
    exact infix_head seg8 noneProvidedS _

theorem c5_optional_defaults_witness :
    (("\n\n4.  **Supporting Documents (Optional):**\n    ```supporting_docs\n    None provided.").toList) <:+:
      render (pyStrip ("t").toList) (pyStrip ("2024-05-01").toList)
        (pyStrip ("City Council").toList) ("Comprehensive").toList naS
        (pyStrip ("   ").toList) (pyStrip []) ∧
    (("\n    ```\n\n5.  **Style Guidelines (Optional):**\n    ```style_guidelines\n    None provided.").toList) <:+:
      render (pyStrip ("t").toList) (pyStrip ("2024-05-01").toList)
        (pyStrip ("City Council").toList) ("Comprehensive").toList naS
        (pyStrip ("   ").toList) (pyStrip []) :=
  c5_optional_defaults
    { transcriptArea := ("t").toList,
      dateEntry := ("2024-05-01").toList,
      bodyEntry := ("City Council").toList,
      reportTypeVar := ("Comprehensive").toList,
      topicEntry := [],
      docsArea := ("   ").toList,
      styleArea := [] } (by decide) (by decide) _ rfl (by decide) (by decide)
    (by decide) (Or.inl rfl) (by decide)
